import Mathlib

/-!
Verification development for the dimensional ELT pipeline of the
education-data analytics repository (dbt models).

Shallow embedding conventions:
* SQL timestamps are `Int` (seconds since the Unix epoch); `TIMESTAMP_SUB(x,
  INTERVAL 1 SECOND)` is `x - 1`; the sentinel `TIMESTAMP('9999-12-31
  23:59:59')` is the constant `SENTINEL`.
* Nullable SQL columns are `Option` values; `COALESCE(x, '')`, `NULLIF`,
  `SAFE_DIVIDE` and SQL `SUM`/`AVG` null-propagation are embedded explicitly.
* `MD5`/`TO_HEX` digests are modelled by an explicit function parameter
  `hash : String → String` (the pipeline only ever compares digests for
  equality); concrete instances use the identity function, which like the
  real digest maps equal inputs to equal outputs.
* `GENERATE_UUID()` is modelled by a per-run stream `uuid : Nat → String`
  indexed by row position (each run of the SQL draws fresh random UUIDs, so
  two runs correspond to two different streams).
* SQL window functions `ROW_NUMBER`/`LAG`/`LEAD` with `ORDER BY` ties are
  executed over a stable sort of the partition (insertion sort keeps the
  engine/presentation order among equal keys), which is one deterministic
  refinement of the engine's arbitrary tie-break.
-/

/-- Sentinel timestamp 9999-12-31 23:59:59 UTC as Unix seconds. -/
def SENTINEL : Int := 253402300799

/-- COALESCE(x, '') for a nullable string column. -/
def coalStr (o : Option String) : String := o.getD ""

/-- COALESCE(CAST(x AS STRING), '') for a nullable integer column. -/
def coalInt (o : Option Int) : String := (o.map toString).getD ""

/-- NULLIF(a, c) for a nullable rational column. -/
def nullifQ (a : Option ℚ) (c : ℚ) : Option ℚ :=
  match a with
  | none => none
  | some x => if x = c then none else some x

/-- SAFE_DIVIDE(a, b): NULL on NULL inputs and on division by zero. -/
def safeDivide (a b : Option ℚ) : Option ℚ :=
  match a, b with
  | some x, some y => if y = 0 then none else some (x / y)
  | _, _ => none

/-- Null-propagating subtraction (SQL `a - b`). -/
def optSub (a b : Option ℚ) : Option ℚ :=
  match a, b with
  | some x, some y => some (x - y)
  | _, _ => none

/-- BigQuery ROUND(x, 2): round half away from zero at two decimals. -/
def round2 (x : ℚ) : ℚ :=
  if x < 0 then -((Rat.floor (-x * 100 + 1/2) : ℚ) / 100)
  else (Rat.floor (x * 100 + 1/2) : ℚ) / 100

/-- ROUND(x, 2) lifted to a nullable column. -/
def round2Opt (a : Option ℚ) : Option ℚ := a.map round2

/-- SQL SUM over a nullable column: NULL when no non-null input, else the sum
of the non-null inputs. -/
def sqlSum (xs : List (Option ℚ)) : Option ℚ :=
  if (xs.filterMap id).isEmpty then none else some (xs.filterMap id).sum

/-- SQL AVG over a nullable column: NULL when no non-null input, else the mean
of the non-null inputs. -/
def sqlAvg (xs : List (Option ℚ)) : Option ℚ :=
  if (xs.filterMap id).isEmpty then none
  else some ((xs.filterMap id).sum / ((xs.filterMap id).length : ℚ))

/-- First occurrence of every distinct element, in order of first appearance
(the distinct keys of a GROUP BY / window PARTITION BY). -/
def firstKeys {α : Type} [DecidableEq α] (l : List α) : List α :=
  l.foldl (fun acc k => if k ∈ acc then acc else acc ++ [k]) []

/-!
## Dimension Builder (`dim_students`, src/unnamed/part_016)

The model `dim_students.sql` reads raw student rows, hashes the tracked
attributes, keeps one row per `(student_id, created_at)` (`rn = 1`), keeps
only hash-change rows, and assigns `effective_from/effective_to/is_current`
from `LEAD(created_at)` computed over **all** rows of the student partition
(before the change filter).
-/

/-- A raw source row of `raw.students` (the columns that feed the SCD hash
plus the `created_at` update timestamp). -/
structure RawStudent where
  student_id : Option Int
  full_name : Option String
  gender : Option String
  date_of_birth : Option String
  division : Option String
  district : Option String
  upazila : Option String
  socioeconomic_status : Option String
  disability_status : Option String
  guardian_contact : Option String
  created_at : Int
deriving DecidableEq

/-- Default row used only as the `getD` fallback (never selected). -/
def defaultRaw : RawStudent :=
  ⟨none, none, none, none, none, none, none, none, none, none, 0⟩

/-- CONCAT of the COALESCEd tracked attributes, exactly the argument of
`MD5(...)` in `student_updates`. -/
def concatAttrs (r : RawStudent) : String :=
  coalInt r.student_id ++ coalStr r.full_name ++ coalStr r.gender ++
  coalStr r.date_of_birth ++ coalStr r.division ++ coalStr r.district ++
  coalStr r.upazila ++ coalStr r.socioeconomic_status ++
  coalStr r.disability_status ++ coalStr r.guardian_contact

/-- `TO_HEX(MD5(CONCAT(...)))` with the digest as a parameter. -/
def rowHash (hash : String → String) (r : RawStudent) : String :=
  hash (concatAttrs r)

/-- Ordering of a student partition by `created_at` (the ORDER BY of the
window functions in `student_updates`). -/
def tsLE : RawStudent → RawStudent → Prop := fun a b => a.created_at ≤ b.created_at

instance tsLE.decidableRel : DecidableRel tsLE := fun a b => Int.decLe a.created_at b.created_at

instance tsLE.isTotal : IsTotal RawStudent tsLE := ⟨fun a b => Int.le_total a.created_at b.created_at⟩

instance tsLE.isTrans : IsTrans RawStudent tsLE := ⟨fun _ _ _ h h2 => le_trans h h2⟩

/-- Stable sort of one student's rows by `created_at`. -/
def sortByTs (l : List RawStudent) : List RawStudent := List.insertionSort tsLE l

/-- The WHERE clause of `changed_records` at position `i` of the sorted
partition: `(row_hash != previous_row_hash OR previous_row_hash IS NULL) AND
rn = 1`.  `previous_row_hash IS NULL` holds exactly at position 0; `rn = 1`
holds iff the previous row has a different `created_at` (equal timestamps are
adjacent in the sorted partition). -/
def keepIdx (hash : String → String) (l : List RawStudent) (i : Nat) : Bool :=
  match i, l.get? i with
  | _, none => false
  | 0, some _ => true
  | Nat.succ j, some c =>
    match l.get? j with
    | none => true
    | some p => (rowHash hash p != rowHash hash c) && (p.created_at != c.created_at)

/-- One emitted `changed_records` row (the columns the claims reference;
the other derived columns of the SELECT are pure per-row projections that no
claim mentions). -/
structure ChangedRec where
  student_id : Int
  full_name : Option String
  gender : Option String
  date_of_birth : Option String
  division : Option String
  district : Option String
  upazila : Option String
  socioeconomic_status : Option String
  disability_status : Option String
  guardian_contact : Option String
  created_at : Int
  is_current : Bool
  effective_from : Int
  effective_to : Int
deriving DecidableEq

/-- Build the `changed_records` row from position `i` of the sorted
partition: `is_current` is `LEAD(created_at) IS NULL`, `effective_from` is
`created_at`, `effective_to` is `LEAD(created_at) - 1 second` or the
sentinel.  `LEAD` is taken over the full partition (it may point at a row the
change filter later drops). -/
def mkRec (l : List RawStudent) (i : Nat) : ChangedRec :=
  let c := l.getD i defaultRaw
  { student_id := c.student_id.getD 0
    full_name := c.full_name
    gender := c.gender
    date_of_birth := c.date_of_birth
    division := c.division
    district := c.district
    upazila := c.upazila
    socioeconomic_status := c.socioeconomic_status
    disability_status := c.disability_status
    guardian_contact := c.guardian_contact
    created_at := c.created_at
    is_current := (l.get? (i+1)).isNone
    effective_from := c.created_at
    effective_to :=
      match l.get? (i+1) with
      | some nx => nx.created_at - 1
      | none => SENTINEL }

/-- `changed_records` for one (sorted) student partition. -/
def perStudent (hash : String → String) (l : List RawStudent) : List ChangedRec :=
  ((List.range l.length).filter (keepIdx hash l)).map (mkRec l)

/-- `changed_records` restricted to one business key. -/
def changedForKey (hash : String → String) (rows : List RawStudent) (k : Int) :
    List ChangedRec :=
  perStudent hash (sortByTs (rows.filter (fun r => r.student_id = some k)))

/-- The final `ORDER BY student_id, effective_from` of `dim_students`. -/
def dimOrderRel : ChangedRec → ChangedRec → Prop := fun a b =>
  a.student_id < b.student_id ∨
  (a.student_id = b.student_id ∧ a.effective_from ≤ b.effective_from)

instance dimOrderRel.decidableRel : DecidableRel dimOrderRel := fun a b => by
  unfold dimOrderRel; infer_instance

/-- A row of the built `dim_students` table: the surrogate key from
`GENERATE_UUID()`, the `changed_records` columns, and the audit columns. -/
structure DimRow extends ChangedRec where
  student_key : String
  dwh_created_at : Int
  dwh_updated_at : Int
  record_source : String
deriving DecidableEq

/-- The final SELECT of `dim_students` applied to one `changed_records` row:
surrogate key from the run's UUID stream, audit timestamps from the run's
`CURRENT_TIMESTAMP()`. -/
def finalize (key : String) (now : Int) (rec : ChangedRec) : DimRow :=
  { toChangedRec := rec
    student_key := key
    dwh_created_at := now
    dwh_updated_at := now
    record_source := "dim_students" }

/-- The deterministic core of `dim_students`: WHERE `student_id IS NOT NULL`,
per-key `changed_records`, final ORDER BY. -/
def dimCore (hash : String → String) (rows : List RawStudent) : List ChangedRec :=
  List.insertionSort dimOrderRel
    (((firstKeys ((rows.filter (fun r => r.student_id ≠ none)).filterMap
        (fun r => r.student_id))).map
      (fun k => changedForKey hash (rows.filter (fun r => r.student_id ≠ none)) k)).flatten)

/-- One run of the `dim_students` model: the deterministic core decorated
with this run's UUID stream and load timestamp. -/
def dimStudents (hash : String → String) (uuid : Nat → String) (now : Int)
    (rows : List RawStudent) : List DimRow :=
  (dimCore hash rows).enum.map (fun p => finalize (uuid p.1) now p.2)

/-!
## Fact Builder (`fct_assessment_results.sql`)

The full-refresh path of the model: WHERE `assessment_date IS NOT NULL`,
deduplication to the row with the latest `recorded_at` per
`assessment_result_id` (`rn = 1` with `ORDER BY recorded_at DESC`), LEFT JOIN
to the *current* dimension snapshots (`WHERE is_current = TRUE`), derived
measures, deterministic surrogate key from `(assessment_result_id,
recorded_at)`, the final QUALIFY (again latest `recorded_at` per id) and the
final ORDER BY.  The incremental-mode Jinja branches and the teacher /
school / subject enrichment joins (same shape as the student join; no claim
references their columns) are not modelled.
-/

/-- A staged assessment row (`stg_assessment_results`), restricted to the
columns the claims reference; the remaining pass-through columns do not
affect any claim. -/
structure StgAssessmentResult where
  assessment_result_id : Int
  student_id : Int
  assessment_date : Option Int
  recorded_at : Int
  marks_obtained : Option ℚ
  max_marks : Option ℚ
  percentage : Option ℚ
deriving DecidableEq

/-- A `dim_students` row as the Fact Builder consumes it (the columns
`student_info` projects plus the effective-dating columns). -/
structure DimStudentRow where
  student_id : Int
  full_name : Option String
  gender : Option String
  age_group : Option String
  socioeconomic_status : Option String
  has_disability : Option Bool
  is_current : Bool
  effective_from : Int
  effective_to : Int
deriving DecidableEq

/-- An output row of `fct_assessment_results` (the columns the claims
reference). -/
structure FactRow where
  assessment_result_key : String
  assessment_result_id : Int
  student_id : Int
  assessment_date : Int
  recorded_at : Int
  student_name : Option String
  student_gender : Option String
  student_age_group : Option String
  socioeconomic_status : Option String
  has_disability : Option Bool
  marks_obtained : Option ℚ
  max_marks : Option ℚ
  percentage : Option ℚ
  standardized_grade : String
  calculated_percentage : Option ℚ
  performance_category : String
  is_passed_indicator : Nat
  is_good_performance : Nat
  normalized_score : Option ℚ
deriving DecidableEq

/-- The fixed-breakpoint letter grade (`standardized_grade`); every CASE
branch compares NULL as false, so a NULL percentage falls to the ELSE. -/
def standardizedGrade (p : Option ℚ) : String :=
  match p with
  | some v =>
    if 80 ≤ v then "A+" else if 70 ≤ v then "A" else if 60 ≤ v then "A-"
    else if 50 ≤ v then "B" else if 40 ≤ v then "C" else if 33 ≤ v then "D"
    else "F"
  | none => "F"

/-- The `performance_category` CASE on the same breakpoints. -/
def performanceCategory (p : Option ℚ) : String :=
  match p with
  | some v =>
    if 80 ≤ v then "Excellent (80-100%)" else if 70 ≤ v then "Very Good (70-79%)"
    else if 60 ≤ v then "Good (60-69%)" else if 50 ≤ v then "Satisfactory (50-59%)"
    else if 40 ≤ v then "Adequate (40-49%)" else if 33 ≤ v then "Marginal (33-39%)"
    else "Fail (Below 33%)"
  | none => "Fail (Below 33%)"

/-- `CASE WHEN percentage >= 33 THEN 1 ELSE 0 END`. -/
def passedIndicator (p : Option ℚ) : Nat :=
  match p with
  | some v => if 33 ≤ v then 1 else 0
  | none => 0

/-- `CASE WHEN percentage >= 60 THEN 1 ELSE 0 END`. -/
def goodIndicator (p : Option ℚ) : Nat :=
  match p with
  | some v => if 60 ≤ v then 1 else 0
  | none => 0

/-- `dbt_utils.generate_surrogate_key([id, recorded_at])`: the MD5 hex digest
of the dash-delimited concatenation of the two cast columns. -/
def surrogateKey (md5 : String → String) (id : Int) (ts : Int) : String :=
  md5 (toString id ++ "-" ++ toString ts)

/-- The `enriched_results` SELECT for one assessment row and one (optional)
matching `student_info` row.  `normalized_score` reproduces the source
verbatim: `SAFE_DIVIDE(marks_obtained, NULLIF(max_marks, 1))` — note the `1`
where the adjacent `calculated_percentage` uses `NULLIF(max_marks, 0)`. -/
def enrichRow (md5 : String → String) (ar : StgAssessmentResult)
    (si : Option DimStudentRow) : FactRow :=
  { assessment_result_key := surrogateKey md5 ar.assessment_result_id ar.recorded_at
    assessment_result_id := ar.assessment_result_id
    student_id := ar.student_id
    assessment_date := ar.assessment_date.getD 0
    recorded_at := ar.recorded_at
    student_name := si.bind (fun d => d.full_name)
    student_gender := si.bind (fun d => d.gender)
    student_age_group := si.bind (fun d => d.age_group)
    socioeconomic_status := si.bind (fun d => d.socioeconomic_status)
    has_disability := si.bind (fun d => d.has_disability)
    marks_obtained := ar.marks_obtained
    max_marks := ar.max_marks
    percentage := ar.percentage
    standardized_grade := standardizedGrade ar.percentage
    calculated_percentage :=
      (safeDivide ar.marks_obtained (nullifQ ar.max_marks 0)).map (fun x => x * 100)
    performance_category := performanceCategory ar.percentage
    is_passed_indicator := passedIndicator ar.percentage
    is_good_performance := goodIndicator ar.percentage
    normalized_score := safeDivide ar.marks_obtained (nullifQ ar.max_marks 1) }

/-- The `student_info` CTE: the dimension restricted to `is_current = TRUE`. -/
def studentInfo (dim : List DimStudentRow) : List DimStudentRow :=
  dim.filter (fun d => d.is_current)

/-- `LEFT JOIN student_info ON ar.student_id = si.student_id`: one output row
per match, or a single null-enriched row when there is no match. -/
def joinStudent (md5 : String → String) (dim : List DimStudentRow)
    (ar : StgAssessmentResult) : List FactRow :=
  match (studentInfo dim).filter (fun d => decide (d.student_id = ar.student_id)) with
  | [] => [enrichRow md5 ar none]
  | ms => ms.map (fun d => enrichRow md5 ar (some d))

/-- `ROW_NUMBER() OVER (PARTITION BY key ORDER BY ts DESC) = 1` as a fold:
the first row of the group with the maximal `ts` survives (stable engine
order among ties). -/
def pickLatest {α : Type} (ts : α → Int) : List α → Option α
  | [] => none
  | x :: xs => some (xs.foldl (fun acc r => if ts acc < ts r then r else acc) x)

/-- Deduplicate a stream to one row per key, keeping per key the row with
the maximal `ts` (first in stream order among ties). -/
def dedupBy {α : Type} (key : α → Int) (ts : α → Int) (l : List α) : List α :=
  (firstKeys (l.map key)).filterMap
    (fun k => pickLatest ts (l.filter (fun r => decide (key r = k))))

/-- The `assessment_results` CTE followed by `enriched_results`: date filter,
dedup to the latest `recorded_at` per id, LEFT JOIN enrichment. -/
def enrichedResults (md5 : String → String) (dim : List DimStudentRow)
    (ars : List StgAssessmentResult) : List FactRow :=
  ((dedupBy (fun r => r.assessment_result_id) (fun r => r.recorded_at)
      (ars.filter (fun r => r.assessment_date ≠ none))).map
    (joinStudent md5 dim)).flatten

/-- The final `ORDER BY assessment_date, ...` (subsequent cluster columns are
not modelled; the sort is stable). -/
def factOrder : FactRow → FactRow → Prop := fun a b =>
  a.assessment_date < b.assessment_date ∨
  (a.assessment_date = b.assessment_date ∧ a.student_id ≤ b.student_id)

instance factOrder.decidableRel : DecidableRel factOrder := fun a b => by
  unfold factOrder; infer_instance

/-- One full-refresh run of `fct_assessment_results`: enrichment, the final
QUALIFY `ROW_NUMBER() OVER (PARTITION BY assessment_result_id ORDER BY
recorded_at DESC) = 1`, and the final ORDER BY. -/
def fctAssessmentResults (md5 : String → String) (dim : List DimStudentRow)
    (ars : List StgAssessmentResult) : List FactRow :=
  List.insertionSort factOrder
    (dedupBy (fun r : FactRow => r.assessment_result_id) (fun r => r.recorded_at)
      (enrichedResults md5 dim ars))

/-!
## Mart Aggregator (`equity_metrics.sql`)

Modelled from the `equity_analysis` CTE on: the input is the list of
`student_metrics` rows (one per grouping cell of the first CTE), the
aggregation groups them by the eight grouping dimensions, and the final
SELECT computes rounded averages, gaps, equity flags and the minimum-count
WHERE clause.
-/

/-- One `student_metrics` row (a cell of the first GROUP BY). -/
structure StudentMetric where
  division_name : String
  district_name : String
  upazila_name : String
  urban_rural_classification : String
  school_type : String
  education_level : String
  academic_year : String
  grade : String
  gender : String
  age_group : String
  socioeconomic_status : String
  has_disability : Bool
  avg_performance : Option ℚ
  student_count : Nat
  avg_attendance_rate : Option ℚ
deriving DecidableEq

/-- The eight grouping dimensions of `equity_analysis`. -/
structure GroupKey where
  division_name : String
  district_name : String
  upazila_name : String
  urban_rural_classification : String
  school_type : String
  education_level : String
  academic_year : String
  grade : String
deriving DecidableEq

/-- The grouping key of a `student_metrics` row. -/
def gkey (m : StudentMetric) : GroupKey :=
  ⟨m.division_name, m.district_name, m.upazila_name,
   m.urban_rural_classification, m.school_type, m.education_level,
   m.academic_year, m.grade⟩

/-- `gender = 'Female'`. -/
def isFemale (m : StudentMetric) : Bool := m.gender == "Female"

/-- `gender = 'Male'`. -/
def isMale (m : StudentMetric) : Bool := m.gender == "Male"

/-- `socioeconomic_status IN ('Low', 'Very Low')` (the `is_low_income`
flag). -/
def isLowIncome (m : StudentMetric) : Bool :=
  m.socioeconomic_status == "Low" || m.socioeconomic_status == "Very Low"

/-- `urban_rural_classification = 'Rural'` (the `is_rural_area` flag). -/
def isRuralArea (m : StudentMetric) : Bool :=
  m.urban_rural_classification == "Rural"

/-- The weighted subgroup average:
`SAFE_DIVIDE(SUM(CASE WHEN f THEN avg_performance * student_count ELSE 0
END), NULLIF(SUM(CASE WHEN f THEN student_count ELSE 0 END), 0))`. -/
def subgroupAvg (f : StudentMetric → Bool) (g : List StudentMetric) : Option ℚ :=
  safeDivide
    (sqlSum (g.map (fun m =>
      if f m then m.avg_performance.map (fun v => v * (m.student_count : ℚ))
      else some 0)))
    (nullifQ (some ((g.map (fun m => if f m then (m.student_count : ℚ) else 0)).sum)) 0)

/-- `SUM(CASE WHEN f THEN student_count ELSE 0 END)`. -/
def subgroupCount (f : StudentMetric → Bool) (g : List StudentMetric) : Nat :=
  (g.map (fun m => if f m then m.student_count else 0)).sum

/-- One `equity_analysis` row. -/
structure EARow where
  key : GroupKey
  total_students : Nat
  overall_avg_performance : Option ℚ
  overall_attendance_rate : Option ℚ
  female_avg : Option ℚ
  male_avg : Option ℚ
  low_income_avg : Option ℚ
  non_low_income_avg : Option ℚ
  with_disability_avg : Option ℚ
  without_disability_avg : Option ℚ
  rural_avg : Option ℚ
  urban_avg : Option ℚ
  female_count : Nat
  male_count : Nat
  low_income_count : Nat
  with_disability_count : Nat
  rural_count : Nat
deriving DecidableEq

/-- The aggregation of one group of `student_metrics` rows. -/
def aggregateGroup (k : GroupKey) (g : List StudentMetric) : EARow :=
  { key := k
    total_students := (g.map (fun m => m.student_count)).sum
    overall_avg_performance := sqlAvg (g.map (fun m => m.avg_performance))
    overall_attendance_rate := sqlAvg (g.map (fun m => m.avg_attendance_rate))
    female_avg := subgroupAvg isFemale g
    male_avg := subgroupAvg isMale g
    low_income_avg := subgroupAvg isLowIncome g
    non_low_income_avg := subgroupAvg (fun m => !(isLowIncome m)) g
    with_disability_avg := subgroupAvg (fun m => m.has_disability) g
    without_disability_avg := subgroupAvg (fun m => !m.has_disability) g
    rural_avg := subgroupAvg isRuralArea g
    urban_avg := subgroupAvg (fun m => !(isRuralArea m)) g
    female_count := subgroupCount isFemale g
    male_count := subgroupCount isMale g
    low_income_count := subgroupCount isLowIncome g
    with_disability_count := subgroupCount (fun m => m.has_disability) g
    rural_count := subgroupCount isRuralArea g }

/-- The `equity_analysis` CTE: GROUP BY the eight dimensions. -/
def equityAnalysis (ms : List StudentMetric) : List EARow :=
  (firstKeys (ms.map gkey)).map
    (fun k => aggregateGroup k (ms.filter (fun m => decide (gkey m = k))))

/-- `CASE WHEN ABS(a - b) <= 5 THEN 1 ELSE 0 END` (NULL compares false, so a
NULL difference yields 0). -/
def equitableFlag (a b : Option ℚ) : Nat :=
  match optSub a b with
  | some d => if |d| ≤ 5 then 1 else 0
  | none => 0

/-- An output row of `equity_metrics` (the columns the claims reference). -/
structure EquityRow where
  equity_metric_key : String
  key : GroupKey
  total_students : Nat
  overall_avg_performance : Option ℚ
  overall_attendance_rate : Option ℚ
  female_avg_performance : Option ℚ
  male_avg_performance : Option ℚ
  gender_gap : Option ℚ
  low_income_avg_performance : Option ℚ
  non_low_income_avg_performance : Option ℚ
  income_gap : Option ℚ
  with_disability_avg_performance : Option ℚ
  without_disability_avg_performance : Option ℚ
  disability_gap : Option ℚ
  rural_avg_performance : Option ℚ
  urban_avg_performance : Option ℚ
  urban_rural_gap : Option ℚ
  female_count : Nat
  male_count : Nat
  low_income_count : Nat
  with_disability_count : Nat
  rural_count : Nat
  is_gender_equitable : Nat
  is_income_equitable : Nat
  is_disability_equitable : Nat
  is_location_equitable : Nat
deriving DecidableEq

/-- The final SELECT of `equity_metrics` on one `equity_analysis` row. -/
def equityFinalRow (k : String) (g : EARow) : EquityRow :=
  { equity_metric_key := k
    key := g.key
    total_students := g.total_students
    overall_avg_performance := round2Opt g.overall_avg_performance
    overall_attendance_rate := round2Opt (g.overall_attendance_rate.map (fun x => x * 100))
    female_avg_performance := round2Opt g.female_avg
    male_avg_performance := round2Opt g.male_avg
    gender_gap := round2Opt (optSub g.male_avg g.female_avg)
    low_income_avg_performance := round2Opt g.low_income_avg
    non_low_income_avg_performance := round2Opt g.non_low_income_avg
    income_gap := round2Opt (optSub g.non_low_income_avg g.low_income_avg)
    with_disability_avg_performance := round2Opt g.with_disability_avg
    without_disability_avg_performance := round2Opt g.without_disability_avg
    disability_gap := round2Opt (optSub g.without_disability_avg g.with_disability_avg)
    rural_avg_performance := round2Opt g.rural_avg
    urban_avg_performance := round2Opt g.urban_avg
    urban_rural_gap := round2Opt (optSub g.urban_avg g.rural_avg)
    female_count := g.female_count
    male_count := g.male_count
    low_income_count := g.low_income_count
    with_disability_count := g.with_disability_count
    rural_count := g.rural_count
    is_gender_equitable := equitableFlag g.male_avg g.female_avg
    is_income_equitable := equitableFlag g.non_low_income_avg g.low_income_avg
    is_disability_equitable := equitableFlag g.without_disability_avg g.with_disability_avg
    is_location_equitable := equitableFlag g.urban_avg g.rural_avg }

/-- The minimum-count WHERE clause of the final SELECT.  Over a (necessarily
nonempty) group, `SUM(CASE ... ELSE 0 END)` is never NULL, so the two
`... IS NULL` branches of the source never fire and are not modelled. -/
def equityGuard (g : EARow) : Bool :=
  decide (10 ≤ g.total_students) && decide (5 ≤ g.female_count) &&
  decide (5 ≤ g.male_count) && decide (5 ≤ g.low_income_count) &&
  decide (3 ≤ g.with_disability_count) &&
  (decide (5 ≤ g.rural_count) || decide (g.rural_count = 0))

/-- One run of `equity_metrics` (the surrogate key again comes from this
run's `GENERATE_UUID()` stream). -/
def equityMetrics (uuid : Nat → String) (ms : List StudentMetric) : List EquityRow :=
  (((equityAnalysis ms).filter equityGuard).enum).map
    (fun p => equityFinalRow (uuid p.1) p.2)

/-!
## Concrete run environments and inputs used by the claim theorems
-/

/-- Identity digest used for concrete instances; like the real MD5 hex
digest it is a function, and the pipeline only compares its outputs for
equality. -/
def idHash : String → String := fun s => s

/-- A concrete UUID stream (one run). -/
def uuidA : Nat → String := fun n => "a-" ++ toString n

/-- A different concrete UUID stream (another run). -/
def uuidB : Nat → String := fun n => "b-" ++ toString n

/-- Unix timestamp of 2024-01-01 00:00:00 UTC. -/
def ts20240101 : Int := 1704067200

/-- Unix timestamp of 2024-06-01 00:00:00 UTC. -/
def ts20240601 : Int := 1717200000

/-- Example scenario of the spec: student 1 in district A on 2024-01-01. -/
def rowC4a : RawStudent :=
  { student_id := some 1
    full_name := some "Student One"
    gender := some "F"
    date_of_birth := some "2010-05-01"
    division := some "Dhaka"
    district := some "A"
    upazila := some "Savar"
    socioeconomic_status := some "Low"
    disability_status := some "None"
    guardian_contact := some "017"
    created_at := ts20240101 }

/-- Example scenario of the spec: the same student moves to district B on
2024-06-01. -/
def rowC4b : RawStudent :=
  { rowC4a with district := some "B", created_at := ts20240601 }

/-- Input whose last source row for the key repeats the previous row's
attributes unchanged (only `created_at` advances). -/
def rowC2a : RawStudent := { rowC4a with created_at := 100 }

/-- The unchanged repetition of `rowC2a` at a later timestamp. -/
def rowC2b : RawStudent := { rowC4a with created_at := 200 }

/-- Two source rows for the same business key and the same update timestamp
with different attributes (a same-timestamp duplicate). -/
def rowC10a : RawStudent := { rowC4a with full_name := some "Alice A", created_at := 100 }

/-- The other same-timestamp duplicate. -/
def rowC10b : RawStudent := { rowC4a with full_name := some "Alice B", created_at := 100 }

/-- Historical (pre-change) version of student 1 in `dim_students`: low
socioeconomic status, valid on `[0, 100)`. -/
def dimV1 : DimStudentRow :=
  { student_id := 1
    full_name := some "Student One"
    gender := some "Female"
    age_group := some "10-14"
    socioeconomic_status := some "Low"
    has_disability := some false
    is_current := false
    effective_from := 0
    effective_to := 100 }

/-- Current (post-change) version of student 1: high socioeconomic status,
valid from 100 on. -/
def dimV2 : DimStudentRow :=
  { dimV1 with
    socioeconomic_status := some "High"
    is_current := true
    effective_from := 100
    effective_to := SENTINEL }

/-- The two-version dimension table for student 1. -/
def dimC1 : List DimStudentRow := [dimV1, dimV2]

/-- An assessment of student 1 dated 50 — before the attribute change at
time 100, so the point-in-time dimension row is `dimV1`. -/
def arC1 : StgAssessmentResult :=
  { assessment_result_id := 500
    student_id := 1
    assessment_date := some 50
    recorded_at := 10
    marks_obtained := some 40
    max_marks := some 50
    percentage := some 80 }

/-- An assessment referencing student 7, who has no row in the dimension. -/
def arC7orphan : StgAssessmentResult :=
  { assessment_result_id := 600
    student_id := 7
    assessment_date := some 20
    recorded_at := 11
    marks_obtained := some 10
    max_marks := some 20
    percentage := some 50 }

/-- A well-referenced assessment in the same batch as `arC7orphan`. -/
def arC7ok : StgAssessmentResult :=
  { assessment_result_id := 601
    student_id := 1
    assessment_date := some 21
    recorded_at := 12
    marks_obtained := some 15
    max_marks := some 20
    percentage := some 75 }

/-- An assessment with `max_marks = 1`: the failing input of the
`normalized_score` slip. -/
def arC9 : StgAssessmentResult :=
  { assessment_result_id := 700
    student_id := 1
    assessment_date := some 20
    recorded_at := 5
    marks_obtained := some 1
    max_marks := some 1
    percentage := some 100 }

/-- Two versions of the same assessment event; the later `recorded_at` must
win. -/
def arC8v1 : StgAssessmentResult :=
  { assessment_result_id := 800
    student_id := 1
    assessment_date := some 30
    recorded_at := 40
    marks_obtained := some 10
    max_marks := some 20
    percentage := some 50 }

/-- The corrected later version of event 800. -/
def arC8v2 : StgAssessmentResult :=
  { arC8v1 with recorded_at := 41, marks_obtained := some 12, percentage := some 60 }

/-- A `student_metrics` cell: 3 female students averaging 70 (below the
5-female minimum). -/
def cellF3 : StudentMetric :=
  { division_name := "Dhaka"
    district_name := "Dhaka"
    upazila_name := "Savar"
    urban_rural_classification := "Urban"
    school_type := "Public"
    education_level := "Primary"
    academic_year := "2024"
    grade := "5"
    gender := "Female"
    age_group := "10-14"
    socioeconomic_status := "Low"
    has_disability := true
    avg_performance := some 70
    student_count := 3
    avg_attendance_rate := some 1 }

/-- The male cell of the same group: 9 students, so the group total (12)
clears the 10-student overall threshold while the female count (3) fails
its 5-student minimum. -/
def cellM9 : StudentMetric :=
  { cellF3 with gender := "Male", student_count := 9, avg_performance := some 80 }

/-- The suppressed-group input for the minimum-count claim. -/
def msC5 : List StudentMetric := [cellF3, cellM9]

/-- A female cell (5 students averaging 72) of a group that passes every
minimum-count guard. -/
def cellF5 : StudentMetric := { cellF3 with student_count := 5, avg_performance := some 72 }

/-- The male cell (5 students averaging 80) of the same group. -/
def cellM5 : StudentMetric :=
  { cellF3 with gender := "Male", student_count := 5, avg_performance := some 80 }

/-- A group with advantaged (male) average 80 and disadvantaged (female)
average 72 that passes every guard. -/
def msC6 : List StudentMetric := [cellF5, cellM5]

/-- Default fact row used only as a `getD` fallback in witness statements. -/
def factDflt : FactRow := enrichRow idHash arC8v1 none

/-- Default mart row used only as a `getD` fallback in witness statements. -/
def eqRowDflt : EquityRow := equityFinalRow "" (aggregateGroup (gkey cellF3) [])

/-- The single fact row the Fact Builder emits for `arC1`. -/
def rowC1 : FactRow := (fctAssessmentResults idHash dimC1 [arC1]).getD 0 factDflt

/-- The single fact row the Fact Builder emits for the two versions of
event 800. -/
def rowC8 : FactRow :=
  (fctAssessmentResults idHash dimC1 [arC8v1, arC8v2]).getD 0 factDflt

/-- The single mart row emitted for the group of `msC6`. -/
def rowC6 : EquityRow := (equityMetrics uuidA msC6).getD 0 eqRowDflt

/-!
## Claim theorems: closed counterexamples and concrete evaluations
-/

/-- C4 counterexample: on the spec's example input the first emitted version
has `effective_to` equal to the next version's timestamp **minus one
second** (`TIMESTAMP_SUB(..., INTERVAL 1 SECOND)`), not the next version's
timestamp 2024-06-01 as the claim states. -/
theorem C4_counterexample :
    ((dimStudents idHash uuidA 0 [rowC4a, rowC4b]).map
        (fun r => (r.effective_from, r.effective_to, r.is_current))).head? =
      some (ts20240101, ts20240601 - 1, false) ∧
    ts20240601 - 1 ≠ ts20240601 := by
  decide

/-- C4 amended: `effective_from` is the version's update timestamp and
`effective_to` is the next source row's timestamp minus one second when one
exists, else the sentinel 9999-12-31 23:59:59; the example input yields
exactly the two rows `(2024-01-01, 2024-06-01 - 1s, is_current = false)` and
`(2024-06-01, 9999-12-31 23:59:59, is_current = true)`. -/
theorem C4_amended :
    (dimStudents idHash uuidA 0 [rowC4a, rowC4b]).map
      (fun r => (r.student_id, r.effective_from, r.effective_to, r.is_current)) =
    [(1, ts20240101, ts20240601 - 1, false),
     (1, ts20240601, SENTINEL, true)] := by
  decide

/-- C2 counterexample: when the last source row for a business key repeats
the previous attributes unchanged, the change filter drops it but the
already-emitted version still has a non-null `LEAD(created_at)`, so the key
ends with **no** `is_current = true` row and a closed final interval — the
claimed "exactly one current row per key for every possible staged input"
fails. -/
theorem C2_counterexample :
    ((dimStudents idHash uuidA 0 [rowC2a, rowC2b]).map
        (fun r => (r.student_id, r.is_current, r.effective_to)) = [(1, false, 199)]) ∧
    List.countP (fun r => decide (r.student_id = 1) && r.is_current)
      (dimStudents idHash uuidA 0 [rowC2a, rowC2b]) = 0 := by
  decide

/-- C3 counterexample: surrogate keys come from `GENERATE_UUID()`, so two
runs over identical input draw different UUID streams and the output tables
are not byte-identical (the `student_key` column differs). -/
theorem C3_counterexample :
    ((dimStudents idHash uuidA 0 [rowC4a, rowC4b]).map (fun r => r.student_key) =
      ["a-0", "a-1"]) ∧
    ((dimStudents idHash uuidB 0 [rowC4a, rowC4b]).map (fun r => r.student_key) =
      ["b-0", "b-1"]) ∧
    dimStudents idHash uuidA 0 [rowC4a, rowC4b] ≠
      dimStudents idHash uuidB 0 [rowC4a, rowC4b] := by
  decide

/-- C3 amended: re-running the Dimension Builder on identical input produces
the same rows up to the freshly drawn surrogate keys and load timestamps —
in particular the same sequence of (business_key, effective_from) pairs and
the same row count, for any two runs (any UUID streams, any load
timestamps). -/
theorem C3_amended (hash : String → String) (uuidX uuidY : Nat → String)
    (nowX nowY : Int) (rows : List RawStudent) :
    (dimStudents hash uuidX nowX rows).map (fun r => (r.student_id, r.effective_from)) =
      (dimStudents hash uuidY nowY rows).map (fun r => (r.student_id, r.effective_from)) ∧
    (dimStudents hash uuidX nowX rows).length =
      (dimStudents hash uuidY nowY rows).length := by
  constructor
  · simp only [dimStudents, List.map_map]
    rfl
  · simp [dimStudents]

/-- C10 counterexample: for two source rows with the same business key and
the same update timestamp, the dedup keeps the **first** row of the
engine-ordered partition (`ROW_NUMBER ... ORDER BY created_at` orders by the
partition's own constant column, so ties keep presentation order), not the
lexicographically last by insertion order as claimed. -/
theorem C10_counterexample :
    ((dimStudents idHash uuidA 0 [rowC10a, rowC10b]).map (fun r => r.full_name) =
      [some "Alice A"]) ∧
    (some "Alice A" : Option String) ≠ some "Alice B" := by
  decide

/-- C10 amended: the dedup keeps, per (business key, update timestamp), the
first row in the engine-provided order — an arbitrary tie-break, since the
window orders by the partition's own constant column — so two runs over the
same input multiset presented in different orders keep different surviving
rows. -/
theorem C10_amended :
    ((dimStudents idHash uuidA 0 [rowC10a, rowC10b]).map (fun r => r.full_name) =
      [some "Alice A"]) ∧
    ((dimStudents idHash uuidA 0 [rowC10b, rowC10a]).map (fun r => r.full_name) =
      [some "Alice B"]) := by
  decide

/-- C1 counterexample: the Fact Builder joins `dim_students` through
`student_info`, which filters `is_current = TRUE`; an assessment dated 50 —
inside the historical row's `[0, 100)` validity interval — is enriched with
the *current* row's socioeconomic status ("High"), not the point-in-time
attributes ("Low") the claim requires. -/
theorem C1_counterexample :
    ((fctAssessmentResults idHash dimC1 [arC1]).map (fun r => r.socioeconomic_status) =
      [some "High"]) ∧
    ((dimC1.filter (fun d => decide (d.effective_from ≤ 50) && decide (50 < d.effective_to))).map
        (fun d => d.socioeconomic_status) = [some "Low"]) ∧
    (some "High" : Option String) ≠ some "Low" := by
  decide

/-- C7 counterexample: an assessment referencing student 7, absent from the
dimension, is **retained** in the fact output (with null student
attributes) because the dimension joins are LEFT JOINs — it is not excluded
and no rejection is counted; the rest of the batch is also emitted. -/
theorem C7_counterexample :
    (List.countP (fun r => decide (r.assessment_result_id = 600))
      (fctAssessmentResults idHash dimC1 [arC7orphan, arC7ok]) = 1) ∧
    (((fctAssessmentResults idHash dimC1 [arC7orphan, arC7ok]).filter
        (fun r => decide (r.assessment_result_id = 600))).map (fun r => r.student_name) =
      [none]) ∧
    (List.countP (fun r => decide (r.assessment_result_id = 601))
      (fctAssessmentResults idHash dimC1 [arC7orphan, arC7ok]) = 1) := by
  decide

/-- C9: on the failing input `marks_obtained = 1, max_marks = 1` the emitted
`normalized_score` is NULL, because the source guards the divisor with
`NULLIF(max_marks, 1)` instead of `NULLIF(max_marks, 0)` (the adjacent
`calculated_percentage` uses the correct guard and evaluates to 100); with
the correct guard the normalized score would be `1/1 = 1`. -/
theorem C9_normalized_score_bug :
    ((fctAssessmentResults idHash dimC1 [arC9]).map
        (fun r => (r.normalized_score, r.calculated_percentage)) = [(none, some 100)]) ∧
    safeDivide (some 1) (nullifQ (some 1) 0) = some 1 :=
  of_decide_eq_true (by with_unfolding_all rfl)

/-- C5 counterexample: a grouping with 3 female and 9 male students has 12
students in total — clearing the 10-student overall threshold, with a
well-defined overall average of 75 — yet the mart emits **nothing** for it:
the final WHERE clause suppresses the entire row when `female_count < 5`,
including the overall average the claim says is still emitted. -/
theorem C5_counterexample :
    (equityMetrics uuidA msC5 = []) ∧
    ((equityAnalysis msC5).map
        (fun g => (g.total_students, g.female_count, g.overall_avg_performance)) =
      [(12, 3, some 75)]) :=
  of_decide_eq_true (by with_unfolding_all rfl)

/-!
## Helper lemmas
-/

/-- Membership in the `firstKeys` fold. -/
theorem firstKeys_loop_mem {α : Type} [DecidableEq α] (l : List α) :
    ∀ (acc : List α) (x : α),
      (x ∈ l.foldl (fun acc k => if k ∈ acc then acc else acc ++ [k]) acc ↔
        x ∈ acc ∨ x ∈ l) := by
  induction l with
  | nil => intro acc x; simp
  | cons a as ih =>
    intro acc x
    simp only [List.foldl_cons]
    rw [ih]
    by_cases h : a ∈ acc
    · simp only [if_pos h, List.mem_cons]
      constructor
      · rintro (hx | hx)
        · exact Or.inl hx
        · exact Or.inr (Or.inr hx)
      · rintro (hx | hx | hx)
        · exact Or.inl hx
        · exact Or.inl (hx ▸ h)
        · exact Or.inr hx
    · simp only [if_neg h, List.mem_append, List.mem_singleton, List.mem_cons]
      tauto

/-- `firstKeys` lists exactly the elements of its input. -/
theorem mem_firstKeys {α : Type} [DecidableEq α] {x : α} {l : List α} :
    x ∈ firstKeys l ↔ x ∈ l := by
  unfold firstKeys
  rw [firstKeys_loop_mem]
  simp

/-- The `firstKeys` fold preserves distinctness of the accumulator. -/
theorem firstKeys_loop_nodup {α : Type} [DecidableEq α] (l : List α) :
    ∀ acc : List α, acc.Nodup →
      (l.foldl (fun acc k => if k ∈ acc then acc else acc ++ [k]) acc).Nodup := by
  induction l with
  | nil => intro acc h; simpa using h
  | cons a as ih =>
    intro acc h
    simp only [List.foldl_cons]
    apply ih
    by_cases ha : a ∈ acc
    · simpa [if_pos ha] using h
    · rw [if_neg ha]
      simp [List.nodup_append, h, ha]

/-- `firstKeys` has no duplicates. -/
theorem firstKeys_nodup {α : Type} [DecidableEq α] (l : List α) : (firstKeys l).Nodup :=
  firstKeys_loop_nodup l [] List.nodup_nil

/-- The latest-wins fold returns its seed or an element of the list. -/
theorem foldl_pick_mem {α : Type} (ts : α → Int) (xs : List α) :
    ∀ a : α, xs.foldl (fun acc r => if ts acc < ts r then r else acc) a = a ∨
      xs.foldl (fun acc r => if ts acc < ts r then r else acc) a ∈ xs := by
  induction xs with
  | nil => intro a; exact Or.inl rfl
  | cons x xs ih =>
    intro a
    simp only [List.foldl_cons]
    by_cases hc : ts a < ts x
    · rw [if_pos hc]
      rcases ih x with h | h
      · right; rw [h]; exact List.mem_cons_self x xs
      · exact Or.inr (List.mem_cons_of_mem x h)
    · rw [if_neg hc]
      rcases ih a with h | h
      · exact Or.inl h
      · exact Or.inr (List.mem_cons_of_mem x h)

/-- The latest-wins fold dominates its seed and every scanned element. -/
theorem foldl_pick_max {α : Type} (ts : α → Int) (xs : List α) :
    ∀ a : α, ts a ≤ ts (xs.foldl (fun acc r => if ts acc < ts r then r else acc) a) ∧
      ∀ y ∈ xs, ts y ≤ ts (xs.foldl (fun acc r => if ts acc < ts r then r else acc) a) := by
  induction xs with
  | nil =>
    intro a
    exact ⟨le_refl _, by intro y hy; cases hy⟩
  | cons x xs ih =>
    intro a
    simp only [List.foldl_cons]
    by_cases hc : ts a < ts x
    · rw [if_pos hc]
      rcases ih x with ⟨h1, h2⟩
      refine ⟨le_trans (le_of_lt hc) h1, ?_⟩
      intro y hy
      rcases List.mem_cons.mp hy with rfl | hy
      · exact h1
      · exact h2 y hy
    · rw [if_neg hc]
      rcases ih a with ⟨h1, h2⟩
      refine ⟨h1, ?_⟩
      intro y hy
      rcases List.mem_cons.mp hy with rfl | hy
      · exact le_trans (le_of_not_lt hc) h1
      · exact h2 y hy

/-- The picked row belongs to its group. -/
theorem pickLatest_mem {α : Type} {ts : α → Int} {l : List α} {x : α}
    (h : pickLatest ts l = some x) : x ∈ l := by
  cases l with
  | nil => cases h
  | cons a as =>
    simp only [pickLatest, Option.some.injEq] at h
    rcases foldl_pick_mem ts as a with h2 | h2
    · rw [← h, h2]; exact List.mem_cons_self a as
    · rw [← h]; exact List.mem_cons_of_mem a h2

/-- The picked row carries the maximal timestamp of its group. -/
theorem pickLatest_max {α : Type} {ts : α → Int} {l : List α} {x : α}
    (h : pickLatest ts l = some x) : ∀ y ∈ l, ts y ≤ ts x := by
  cases l with
  | nil => cases h
  | cons a as =>
    simp only [pickLatest, Option.some.injEq] at h
    intro y hy
    rcases List.mem_cons.mp hy with rfl | hy
    · rw [← h]; exact (foldl_pick_max ts as y).1
    · rw [← h]; exact (foldl_pick_max ts as a).2 y hy

/-- A nonempty group yields a picked row. -/
theorem pickLatest_isSome {α : Type} (ts : α → Int) {l : List α} (h : l ≠ []) :
    ∃ x, pickLatest ts l = some x := by
  cases l with
  | nil => exact absurd rfl h
  | cons a as => exact ⟨_, rfl⟩

/-- Every survivor of `dedupBy` is an input row carrying the maximal
timestamp among the input rows with its key. -/
theorem mem_dedupBy {α : Type} {key ts : α → Int} {l : List α} {x : α}
    (h : x ∈ dedupBy key ts l) :
    x ∈ l ∧ ∀ y ∈ l, key y = key x → ts y ≤ ts x := by
  unfold dedupBy at h
  rcases List.mem_filterMap.mp h with ⟨k, hk, hpick⟩
  have hmem := pickLatest_mem hpick
  have hxl : x ∈ l := List.mem_of_mem_filter hmem
  have hkey : key x = k := of_decide_eq_true (List.mem_filter.mp hmem).2
  refine ⟨hxl, ?_⟩
  intro y hy hky
  apply pickLatest_max hpick
  apply List.mem_filter.mpr
  exact ⟨hy, decide_eq_true (by rw [hky, hkey])⟩

/-- Every key present in the input survives `dedupBy`. -/
theorem dedupBy_exists {α : Type} (key ts : α → Int) {l : List α} {k : Int}
    (h : ∃ y ∈ l, key y = k) : ∃ x ∈ dedupBy key ts l, key x = k := by
  rcases h with ⟨y, hy, hky⟩
  have hk : k ∈ firstKeys (l.map key) := mem_firstKeys.mpr (List.mem_map.mpr ⟨y, hy, hky⟩)
  have hne : l.filter (fun r => decide (key r = k)) ≠ [] := by
    intro hnil
    have hmy : y ∈ l.filter (fun r => decide (key r = k)) :=
      List.mem_filter.mpr ⟨hy, decide_eq_true hky⟩
    rw [hnil] at hmy
    cases hmy
  rcases pickLatest_isSome ts hne with ⟨x, hx⟩
  refine ⟨x, ?_, ?_⟩
  · exact List.mem_filterMap.mpr ⟨k, hk, hx⟩
  · exact of_decide_eq_true (List.mem_filter.mp (pickLatest_mem hx)).2

/-- A survivor arising from the keys `ks` has its key in `ks`. -/
theorem mem_filterMap_key {α : Type} (key ts : α → Int) (l : List α)
    {as : List Int} {x : α}
    (h : x ∈ as.filterMap
      (fun k2 => pickLatest ts (l.filter (fun r => decide (key r = k2))))) :
    key x ∈ as := by
  rcases List.mem_filterMap.mp h with ⟨k2, hk2, hp⟩
  have hf := (List.mem_filter.mp (pickLatest_mem hp)).2
  rw [of_decide_eq_true hf]
  exact hk2

/-- Over distinct keys, at most one survivor carries any given key. -/
theorem countP_key_filterMap {α : Type} (key ts : α → Int) (l : List α) (k : Int) :
    ∀ ks : List Int, ks.Nodup →
      List.countP (fun r => decide (key r = k))
        (ks.filterMap
          (fun k2 => pickLatest ts (l.filter (fun r => decide (key r = k2))))) ≤ 1 := by
  intro ks
  induction ks with
  | nil => intro _; simp
  | cons a as ih =>
    intro hnd
    rw [List.filterMap_cons]
    cases hp : pickLatest ts (l.filter (fun r => decide (key r = a))) with
    | none => exact ih (List.nodup_cons.mp hnd).2
    | some x =>
      rw [List.countP_cons]
      have hxa : key x = a := of_decide_eq_true (List.mem_filter.mp (pickLatest_mem hp)).2
      by_cases hxk : key x = k
      · have hzero : List.countP (fun r => decide (key r = k))
            (as.filterMap
              (fun k2 => pickLatest ts (l.filter (fun r => decide (key r = k2))))) = 0 := by
          apply List.countP_eq_zero.mpr
          intro y hy hpy
          have hya : key y ∈ as := mem_filterMap_key key ts l hy
          have hyk : key y = k := of_decide_eq_true hpy
          have hak : a = k := hxa ▸ hxk
          exact (List.nodup_cons.mp hnd).1 (by rw [← hak] at hyk; rw [← hyk]; exact hya)
        rw [hzero, decide_eq_true hxk]
        simp
      · have hpx : decide (key x = k) = false := decide_eq_false hxk
        rw [hpx]
        have hle := ih (List.nodup_cons.mp hnd).2
        simpa using hle

/-- `dedupBy` keeps at most one row per key. -/
theorem dedupBy_countP {α : Type} (key ts : α → Int) (l : List α) (k : Int) :
    List.countP (fun r => decide (key r = k)) (dedupBy key ts l) ≤ 1 :=
  countP_key_filterMap key ts l k (firstKeys (l.map key)) (firstKeys_nodup _)

/-- `countP` distributes over `flatten` as a sum. -/
theorem countP_flatten_eq {α : Type} (p : α → Bool) (L : List (List α)) :
    List.countP p L.flatten = (L.map (List.countP p)).sum := by
  induction L with
  | nil => rfl
  | cons l ls ih => simp [List.countP_append, ih]

/-- A sum over distinct keys where only `k`'s entry may be nonzero (and is at
most one) is at most one. -/
theorem sum_map_le_one {β : Type} (c : β → Nat) (k : β) :
    ∀ keys : List β, keys.Nodup → (∀ k2 ∈ keys, k2 ≠ k → c k2 = 0) → c k ≤ 1 →
      (keys.map c).sum ≤ 1 := by
  intro keys
  induction keys with
  | nil => intro _ _ _; simp
  | cons a as ih =>
    intro hnd hz hk
    simp only [List.map_cons, List.sum_cons]
    by_cases ha : a = k
    · subst ha
      have hz2 : (as.map c).sum = 0 := by
        apply List.sum_eq_zero
        intro x hx
        rcases List.mem_map.mp hx with ⟨k2, hk2, rfl⟩
        apply hz k2 (List.mem_cons_of_mem a hk2)
        intro hkk
        exact (List.nodup_cons.mp hnd).1 (hkk ▸ hk2)
      rw [hz2]
      omega
    · have hca : c a = 0 := hz a (List.mem_cons_self a as) ha
      have := ih (List.nodup_cons.mp hnd).2 (fun k2 h2 => hz k2 (List.mem_cons_of_mem a h2)) hk
      omega

/-- At most one `changed_records` row of a partition is marked current:
`is_current` is `LEAD(created_at) IS NULL`, which holds only at the last
position of the partition. -/
theorem perStudent_current_le_one (hash : String → String) (l : List RawStudent) :
    List.countP (fun rec => rec.is_current) (perStudent hash l) ≤ 1 := by
  unfold perStudent
  rw [List.countP_map]
  have h1 : List.countP ((fun rec : ChangedRec => rec.is_current) ∘ mkRec l)
      ((List.range l.length).filter (keepIdx hash l)) ≤
      List.countP (fun i => i == l.length - 1)
      ((List.range l.length).filter (keepIdx hash l)) := by
    apply List.countP_mono_left
    intro i hi hp
    have hilt : i < l.length := List.mem_range.mp (List.mem_of_mem_filter hi)
    have hcur : (l.get? (i+1)).isNone = true := hp
    have hlen : l.length ≤ i + 1 := List.get?_eq_none.mp (Option.isNone_iff_eq_none.mp hcur)
    exact beq_iff_eq.mpr (by omega)
  have h2 : List.countP (fun i => i == l.length - 1)
      ((List.range l.length).filter (keepIdx hash l)) =
      List.count (l.length - 1) ((List.range l.length).filter (keepIdx hash l)) :=
    (List.count_eq_countP _ _).symm
  have h3 : List.count (l.length - 1) ((List.range l.length).filter (keepIdx hash l)) ≤ 1 :=
    List.nodup_iff_count_le_one.mp ((List.nodup_range l.length).filter _) _
  omega

/-- Every `changed_records` row of the partition restricted to key `k`
carries business key `k`. -/
theorem changedForKey_student_id (hash : String → String) (rows : List RawStudent)
    (k : Int) {rec : ChangedRec} (h : rec ∈ changedForKey hash rows k) :
    rec.student_id = k := by
  unfold changedForKey perStudent at h
  rcases List.mem_map.mp h with ⟨i, hi, rfl⟩
  have hilt : i < (sortByTs (rows.filter (fun r => r.student_id = some k))).length :=
    List.mem_range.mp (List.mem_of_mem_filter hi)
  set l := sortByTs (rows.filter (fun r => r.student_id = some k)) with hldef
  have h2 : l.getD i defaultRaw = l.get ⟨i, hilt⟩ := by
    rw [List.getD_eq_get?, List.get?_eq_get hilt]
    rfl
  have hcmem : l.get ⟨i, hilt⟩ ∈ l := List.get_mem l i hilt
  have hperm : List.Perm l (rows.filter (fun r => r.student_id = some k)) :=
    List.perm_insertionSort tsLE _
  have hmemf : l.get ⟨i, hilt⟩ ∈ rows.filter (fun r => r.student_id = some k) :=
    hperm.mem_iff.mp hcmem
  have hid : (l.get ⟨i, hilt⟩).student_id = some k :=
    of_decide_eq_true (List.mem_filter.mp hmemf).2
  show (l.getD i defaultRaw).student_id.getD 0 = k
  rw [h2, hid]
  rfl

/-- Adjacent emitted intervals of one partition are ordered: each row's
`effective_to` (next source timestamp minus one second) is at most the next
emitted row's `effective_from`. -/
theorem changedForKey_pairwise (hash : String → String) (rows : List RawStudent) (k : Int) :
    List.Pairwise (fun a b : ChangedRec => a.effective_to ≤ b.effective_from)
      (changedForKey hash rows k) := by
  unfold changedForKey perStudent
  set l := sortByTs (rows.filter (fun r => r.student_id = some k)) with hldef
  have hsorted : List.Sorted tsLE l := List.sorted_insertionSort tsLE _
  rw [List.pairwise_map]
  have hK : List.Pairwise (· < ·) ((List.range l.length).filter (keepIdx hash l)) :=
    List.Pairwise.sublist (List.filter_sublist _) (List.pairwise_lt_range l.length)
  refine List.Pairwise.imp_of_mem ?_ hK
  intro i j hi hj hij
  have hjlt : j < l.length := List.mem_range.mp (List.mem_of_mem_filter hj)
  have hi1 : i + 1 < l.length := by omega
  have hto : (mkRec l i).effective_to = (l.get ⟨i+1, hi1⟩).created_at - 1 := by
    show (match l.get? (i+1) with
      | some nx => nx.created_at - 1
      | none => SENTINEL) = _
    rw [List.get?_eq_get hi1]
  have hfrom : (mkRec l j).effective_from = (l.get ⟨j, hjlt⟩).created_at := by
    show (l.getD j defaultRaw).created_at = _
    rw [List.getD_eq_get?, List.get?_eq_get hjlt]
    rfl
  rw [hto, hfrom]
  rcases Nat.lt_or_ge (i+1) j with hlt | hge
  · have hrel : tsLE (l.get ⟨i+1, hi1⟩) (l.get ⟨j, hjlt⟩) :=
      hsorted.rel_get_of_lt (Fin.mk_lt_mk.mpr hlt)
    have : (l.get ⟨i+1, hi1⟩).created_at ≤ (l.get ⟨j, hjlt⟩).created_at := hrel
    omega
  · have hj1 : i + 1 = j := by omega
    subst hj1
    have heq : l.get ⟨i+1, hjlt⟩ = l.get ⟨i+1, hi1⟩ := rfl
    rw [heq]
    omega

/-- C2 amended: for every business key, the built `dim_students` contains at
most one `is_current = true` row, and the emitted intervals of one key never
overlap — each row's `effective_to` (the next source row's timestamp minus
one second) is at most the next row's `effective_from`.  The intervals do
not partition time (one-second gaps), and a key whose last source row
repeats unchanged attributes has no current row at all. -/
theorem C2_amended (hash : String → String) (uuid : Nat → String) (now : Int)
    (rows : List RawStudent) (k : Int) :
    List.countP (fun r : DimRow => decide (r.student_id = k) && r.is_current)
        (dimStudents hash uuid now rows) ≤ 1 ∧
    List.Pairwise (fun a b : ChangedRec => a.effective_to ≤ b.effective_from)
      (changedForKey hash (rows.filter (fun r => r.student_id ≠ none)) k) := by
  constructor
  · unfold dimStudents
    rw [List.countP_map]
    have he : List.countP
        ((fun r : DimRow => decide (r.student_id = k) && r.is_current) ∘
          fun p : Nat × ChangedRec => finalize (uuid p.1) now p.2)
        (dimCore hash rows).enum =
        List.countP (fun rec : ChangedRec => decide (rec.student_id = k) && rec.is_current)
          (dimCore hash rows) := by
      conv_rhs => rw [← List.enum_map_snd (dimCore hash rows)]
      rw [List.countP_map]
      rfl
    rw [he]
    unfold dimCore
    rw [List.Perm.countP_eq _ (List.perm_insertionSort dimOrderRel _)]
    rw [countP_flatten_eq, List.map_map]
    apply sum_map_le_one _ k _ (firstKeys_nodup _)
    · intro k2 _ hk2
      apply List.countP_eq_zero.mpr
      intro rec hrec hp
      have hid := changedForKey_student_id hash _ k2 hrec
      rw [Bool.and_eq_true] at hp
      have : rec.student_id = k := of_decide_eq_true hp.1
      exact hk2 (by rw [← hid, this])
    · calc List.countP (fun rec : ChangedRec => decide (rec.student_id = k) && rec.is_current)
            (changedForKey hash (rows.filter (fun r => r.student_id ≠ none)) k) ≤
          List.countP (fun rec : ChangedRec => rec.is_current)
            (changedForKey hash (rows.filter (fun r => r.student_id ≠ none)) k) :=
            List.countP_mono_left (fun rec _ hp => by
              rw [Bool.and_eq_true] at hp
              exact hp.2)
      _ ≤ 1 := perStudent_current_le_one hash _
  · exact changedForKey_pairwise hash _ k

/-- Case analysis of the student LEFT JOIN: either the row was enriched from
a matching `student_info` row, or no current dimension row matches and the
enrichment is null. -/
theorem joinStudent_cases (md5 : String → String) (dim : List DimStudentRow)
    (ar : StgAssessmentResult) {r : FactRow} (h : r ∈ joinStudent md5 dim ar) :
    (∃ d, d ∈ studentInfo dim ∧ d.student_id = ar.student_id ∧
      r = enrichRow md5 ar (some d)) ∨
    (r = enrichRow md5 ar none ∧
      ∀ d ∈ studentInfo dim, d.student_id ≠ ar.student_id) := by
  unfold joinStudent at h
  cases hm : (studentInfo dim).filter (fun d => decide (d.student_id = ar.student_id)) with
  | nil =>
    rw [hm] at h
    right
    refine ⟨List.mem_singleton.mp h, ?_⟩
    intro d hd hdac
    have hdm : d ∈ (studentInfo dim).filter
        (fun d => decide (d.student_id = ar.student_id)) :=
      List.mem_filter.mpr ⟨hd, decide_eq_true hdac⟩
    rw [hm] at hdm
    cases hdm
  | cons x xs =>
    rw [hm] at h
    left
    rcases List.mem_map.mp h with ⟨d, hd, rfl⟩
    have hd2 : d ∈ (studentInfo dim).filter
        (fun d => decide (d.student_id = ar.student_id)) := by
      rw [hm]; exact hd
    have hdm := List.mem_filter.mp hd2
    exact ⟨d, hdm.1, of_decide_eq_true hdm.2, rfl⟩

/-- The LEFT JOIN always emits at least one row per driving row. -/
theorem joinStudent_ne_nil (md5 : String → String) (dim : List DimStudentRow)
    (ar : StgAssessmentResult) : joinStudent md5 dim ar ≠ [] := by
  unfold joinStudent
  cases hm : (studentInfo dim).filter (fun d => decide (d.student_id = ar.student_id)) with
  | nil => exact List.cons_ne_nil _ _
  | cons x xs => exact List.cons_ne_nil _ _

/-- Every join output carries the driving row's natural key, its
`recorded_at`, and the deterministic surrogate key built from the two. -/
theorem joinStudent_proj (md5 : String → String) (dim : List DimStudentRow)
    (ar : StgAssessmentResult) {r : FactRow} (h : r ∈ joinStudent md5 dim ar) :
    r.assessment_result_id = ar.assessment_result_id ∧
    r.recorded_at = ar.recorded_at ∧
    r.assessment_result_key = surrogateKey md5 ar.assessment_result_id ar.recorded_at := by
  rcases joinStudent_cases md5 dim ar h with ⟨d, _, _, rfl⟩ | ⟨rfl, _⟩ <;>
    exact ⟨rfl, rfl, rfl⟩

/-- Membership in `enriched_results` decomposes through the stage-1 dedup
and the LEFT JOIN. -/
theorem mem_enrichedResults (md5 : String → String) (dim : List DimStudentRow)
    (ars : List StgAssessmentResult) {r : FactRow} :
    r ∈ enrichedResults md5 dim ars ↔
    ∃ ar ∈ dedupBy (fun s : StgAssessmentResult => s.assessment_result_id)
        (fun s => s.recorded_at) (ars.filter (fun s => s.assessment_date ≠ none)),
      r ∈ joinStudent md5 dim ar := by
  unfold enrichedResults
  rw [List.mem_flatten]
  constructor
  · rintro ⟨sub, hsub, hr⟩
    rcases List.mem_map.mp hsub with ⟨ar, har, rfl⟩
    exact ⟨ar, har, hr⟩
  · rintro ⟨ar, har, hr⟩
    exact ⟨joinStudent md5 dim ar, List.mem_map.mpr ⟨ar, har, rfl⟩, hr⟩

/-- Every final fact row survives the final QUALIFY over the enriched
rows. -/
theorem mem_fct (md5 : String → String) (dim : List DimStudentRow)
    (ars : List StgAssessmentResult) {r : FactRow}
    (h : r ∈ fctAssessmentResults md5 dim ars) :
    r ∈ dedupBy (fun x : FactRow => x.assessment_result_id) (fun x => x.recorded_at)
      (enrichedResults md5 dim ars) := by
  unfold fctAssessmentResults at h
  exact (List.perm_insertionSort factOrder _).mem_iff.mp h

/-- Every final fact row is a join output of some deduplicated staged row. -/
theorem fct_trace (md5 : String → String) (dim : List DimStudentRow)
    (ars : List StgAssessmentResult) {r : FactRow}
    (h : r ∈ fctAssessmentResults md5 dim ars) :
    ∃ ar, r ∈ joinStudent md5 dim ar := by
  have h2 := (mem_dedupBy (mem_fct md5 dim ars h)).1
  rcases (mem_enrichedResults md5 dim ars).mp h2 with ⟨ar, _, hr⟩
  exact ⟨ar, hr⟩

/-- C1 amended: the Fact Builder resolves the student dimension by business
key against the rows marked `is_current = TRUE` only — the fact's
assessment date plays no role in the join.  Every emitted fact row is
either enriched from a current dimension row with its business key, or
null-enriched because no current row carries that key. -/
theorem C1_amended (md5 : String → String) (dim : List DimStudentRow)
    (ars : List StgAssessmentResult) (r : FactRow)
    (hr : r ∈ fctAssessmentResults md5 dim ars) :
    (∃ d ∈ dim, d.is_current = true ∧ d.student_id = r.student_id ∧
      r.student_name = d.full_name ∧ r.student_gender = d.gender ∧
      r.student_age_group = d.age_group ∧
      r.socioeconomic_status = d.socioeconomic_status ∧
      r.has_disability = d.has_disability) ∨
    (r.student_name = none ∧ r.student_gender = none ∧ r.student_age_group = none ∧
      r.socioeconomic_status = none ∧ r.has_disability = none ∧
      ∀ d ∈ dim, d.is_current = true → d.student_id ≠ r.student_id) := by
  rcases fct_trace md5 dim ars hr with ⟨ar, hj⟩
  rcases joinStudent_cases md5 dim ar hj with ⟨d, hdsi, hdid, rfl⟩ | ⟨rfl, hnone⟩
  · left
    have hdm := List.mem_filter.mp hdsi
    exact ⟨d, hdm.1, hdm.2, hdid, rfl, rfl, rfl, rfl, rfl⟩
  · right
    refine ⟨rfl, rfl, rfl, rfl, rfl, ?_⟩
    intro d hd hcur hdid
    exact hnone d (List.mem_filter.mpr ⟨hd, hcur⟩) hdid

/-- C7 amended: a staged row with a non-null business date always yields a
fact row with its event id, whether or not its dimension references
resolve — unresolvable references are retained (null-enriched), not
excluded, and the batch is not aborted. -/
theorem C7_amended (md5 : String → String) (dim : List DimStudentRow)
    (ars : List StgAssessmentResult) (idv : Int)
    (h : ∃ s ∈ ars, s.assessment_result_id = idv ∧ s.assessment_date ≠ none) :
    ∃ r ∈ fctAssessmentResults md5 dim ars, r.assessment_result_id = idv := by
  rcases h with ⟨s, hs, hsid, hsd⟩
  have hs1 : s ∈ ars.filter (fun x => x.assessment_date ≠ none) :=
    List.mem_filter.mpr ⟨hs, decide_eq_true hsd⟩
  rcases dedupBy_exists (fun x : StgAssessmentResult => x.assessment_result_id)
      (fun x => x.recorded_at) ⟨s, hs1, hsid⟩ with ⟨s2, hs2, hs2id⟩
  rcases List.exists_mem_of_ne_nil _ (joinStudent_ne_nil md5 dim s2) with ⟨y, hy⟩
  have hyid : y.assessment_result_id = idv := by
    rw [(joinStudent_proj md5 dim s2 hy).1, hs2id]
  have hyen : y ∈ enrichedResults md5 dim ars :=
    (mem_enrichedResults md5 dim ars).mpr ⟨s2, hs2, hy⟩
  rcases dedupBy_exists (fun x : FactRow => x.assessment_result_id)
      (fun x => x.recorded_at) ⟨y, hyen, hyid⟩ with ⟨r, hrd, hrid⟩
  refine ⟨r, ?_, hrid⟩
  unfold fctAssessmentResults
  exact (List.perm_insertionSort factOrder _).mem_iff.mpr hrd

/-- C8: after a load there is at most one fact row per event id; each
emitted row's surrogate key is the deterministic digest of its
`(assessment_result_id, recorded_at)`; and each emitted row carries the
maximal `recorded_at` among the staged (dated) versions of its event id. -/
theorem C8_dedup_key (md5 : String → String) (dim : List DimStudentRow)
    (ars : List StgAssessmentResult) :
    (∀ idv : Int, List.countP (fun r => decide (r.assessment_result_id = idv))
        (fctAssessmentResults md5 dim ars) ≤ 1) ∧
    (∀ r ∈ fctAssessmentResults md5 dim ars,
        r.assessment_result_key = surrogateKey md5 r.assessment_result_id r.recorded_at) ∧
    (∀ r ∈ fctAssessmentResults md5 dim ars, ∀ s ∈ ars,
        s.assessment_result_id = r.assessment_result_id → s.assessment_date ≠ none →
        s.recorded_at ≤ r.recorded_at) := by
  refine ⟨?_, ?_, ?_⟩
  · intro idv
    unfold fctAssessmentResults
    rw [List.Perm.countP_eq _ (List.perm_insertionSort factOrder _)]
    exact dedupBy_countP _ _ _ idv
  · intro r hr
    rcases fct_trace md5 dim ars hr with ⟨ar, hj⟩
    rcases joinStudent_proj md5 dim ar hj with ⟨h1, h2, h3⟩
    rw [h3, h1, h2]
  · intro r hr s hsmem hsid hsd
    have hrmax := (mem_dedupBy (mem_fct md5 dim ars hr)).2
    have hs1 : s ∈ ars.filter (fun x => x.assessment_date ≠ none) :=
      List.mem_filter.mpr ⟨hsmem, decide_eq_true hsd⟩
    rcases dedupBy_exists (fun x : StgAssessmentResult => x.assessment_result_id)
        (fun x => x.recorded_at) ⟨s, hs1, rfl⟩ with ⟨s2, hs2, hs2id⟩
    have hs2max := (mem_dedupBy hs2).2 s hs1 (by rw [hs2id])
    rcases List.exists_mem_of_ne_nil _ (joinStudent_ne_nil md5 dim s2) with ⟨y, hy⟩
    rcases joinStudent_proj md5 dim s2 hy with ⟨hy1, hy2, _⟩
    have hyen : y ∈ enrichedResults md5 dim ars :=
      (mem_enrichedResults md5 dim ars).mpr ⟨s2, hs2, hy⟩
    have hykey : y.assessment_result_id = r.assessment_result_id := by
      rw [hy1, hs2id]
      exact hsid
    have hyr := hrmax y hyen hykey
    rw [hy2] at hyr
    calc s.recorded_at ≤ s2.recorded_at := hs2max
    _ ≤ r.recorded_at := hyr

/-- C5 amended: every emitted mart row satisfies all the minimum-count
guards simultaneously; a grouping failing any of them (for example fewer
than 5 female students) is suppressed entirely, overall average included. -/
theorem C5_amended (uuid : Nat → String) (ms : List StudentMetric) (r : EquityRow)
    (hr : r ∈ equityMetrics uuid ms) :
    10 ≤ r.total_students ∧ 5 ≤ r.female_count ∧ 5 ≤ r.male_count ∧
    5 ≤ r.low_income_count ∧ 3 ≤ r.with_disability_count ∧
    (5 ≤ r.rural_count ∨ r.rural_count = 0) := by
  unfold equityMetrics at hr
  rcases List.mem_map.mp hr with ⟨⟨i, g⟩, hmem, rfl⟩
  have hg : g ∈ (equityAnalysis ms).filter equityGuard :=
    List.get?_mem (List.mem_enum_iff_get?.mp hmem)
  have hguard := (List.mem_filter.mp hg).2
  unfold equityGuard at hguard
  simp only [Bool.and_eq_true, Bool.or_eq_true, decide_eq_true_eq] at hguard
  exact ⟨hguard.1.1.1.1.1, hguard.1.1.1.1.2, hguard.1.1.1.2, hguard.1.1.2,
    hguard.1.2, hguard.2⟩

/-- Witness for the C5 amended theorem at the concrete passing group. -/
theorem C5_amended_witness :
    10 ≤ rowC6.total_students ∧ 5 ≤ rowC6.female_count ∧ 5 ≤ rowC6.male_count ∧
    5 ≤ rowC6.low_income_count ∧ 3 ≤ rowC6.with_disability_count ∧
    (5 ≤ rowC6.rural_count ∨ rowC6.rural_count = 0) :=
  C5_amended uuidA msC6 rowC6 (of_decide_eq_true (by with_unfolding_all rfl))

/-- An advantaged average of 80 against a disadvantaged average of 72 gives
a rounded gap of exactly +8 and an equity flag of 0 under the fixed
absolute-gap threshold of 5. -/
theorem gap_at_80_72 (a b : Option ℚ) (ha : a = some 80) (hb : b = some 72) :
    round2Opt (optSub a b) = some 8 ∧ equitableFlag a b = 0 := by
  subst ha
  subst hb
  constructor
  · exact of_decide_eq_true (by with_unfolding_all rfl)
  · exact of_decide_eq_true (by with_unfolding_all rfl)

/-- C6: every emitted gap is the rounded difference (advantaged subgroup
average minus disadvantaged subgroup average) with the fixed sign
convention male−female, non-low-income−low-income,
without-disability−with-disability, urban−rural; whenever the advantaged
average is 80 and the disadvantaged average is 72 the reported gap is
exactly +8 and the corresponding equity flag is 0 (not equitable) under the
fixed threshold 5. -/
theorem C6_gap_sign (uuid : Nat → String) (ms : List StudentMetric) (r : EquityRow)
    (hr : r ∈ equityMetrics uuid ms) :
    ∃ g, g ∈ equityAnalysis ms ∧
      r.gender_gap = round2Opt (optSub g.male_avg g.female_avg) ∧
      r.income_gap = round2Opt (optSub g.non_low_income_avg g.low_income_avg) ∧
      r.disability_gap =
        round2Opt (optSub g.without_disability_avg g.with_disability_avg) ∧
      r.urban_rural_gap = round2Opt (optSub g.urban_avg g.rural_avg) ∧
      (g.male_avg = some 80 → g.female_avg = some 72 →
        r.gender_gap = some 8 ∧ r.is_gender_equitable = 0) ∧
      (g.non_low_income_avg = some 80 → g.low_income_avg = some 72 →
        r.income_gap = some 8 ∧ r.is_income_equitable = 0) ∧
      (g.without_disability_avg = some 80 → g.with_disability_avg = some 72 →
        r.disability_gap = some 8 ∧ r.is_disability_equitable = 0) ∧
      (g.urban_avg = some 80 → g.rural_avg = some 72 →
        r.urban_rural_gap = some 8 ∧ r.is_location_equitable = 0) := by
  unfold equityMetrics at hr
  rcases List.mem_map.mp hr with ⟨⟨i, g⟩, hmem, rfl⟩
  have hg : g ∈ equityAnalysis ms :=
    List.mem_of_mem_filter (List.get?_mem (List.mem_enum_iff_get?.mp hmem))
  exact ⟨g, hg, rfl, rfl, rfl, rfl,
    fun h1 h2 => gap_at_80_72 _ _ h1 h2,
    fun h1 h2 => gap_at_80_72 _ _ h1 h2,
    fun h1 h2 => gap_at_80_72 _ _ h1 h2,
    fun h1 h2 => gap_at_80_72 _ _ h1 h2⟩

/-- Witness for C6 at the concrete group with male average 80 and female
average 72. -/
theorem C6_gap_sign_witness :
    ∃ g, g ∈ equityAnalysis msC6 ∧
      rowC6.gender_gap = round2Opt (optSub g.male_avg g.female_avg) ∧
      rowC6.income_gap = round2Opt (optSub g.non_low_income_avg g.low_income_avg) ∧
      rowC6.disability_gap =
        round2Opt (optSub g.without_disability_avg g.with_disability_avg) ∧
      rowC6.urban_rural_gap = round2Opt (optSub g.urban_avg g.rural_avg) ∧
      (g.male_avg = some 80 → g.female_avg = some 72 →
        rowC6.gender_gap = some 8 ∧ rowC6.is_gender_equitable = 0) ∧
      (g.non_low_income_avg = some 80 → g.low_income_avg = some 72 →
        rowC6.income_gap = some 8 ∧ rowC6.is_income_equitable = 0) ∧
      (g.without_disability_avg = some 80 → g.with_disability_avg = some 72 →
        rowC6.disability_gap = some 8 ∧ rowC6.is_disability_equitable = 0) ∧
      (g.urban_avg = some 80 → g.rural_avg = some 72 →
        rowC6.urban_rural_gap = some 8 ∧ rowC6.is_location_equitable = 0) :=
  C6_gap_sign uuidA msC6 rowC6 (of_decide_eq_true (by with_unfolding_all rfl))

set_option maxRecDepth 40000

/-- Witness for the C1 amended theorem: the fact for `arC1` resolves its
student enrichment from a current dimension row (or is null-enriched),
irrespective of its assessment date. -/
theorem C1_amended_witness :
    (∃ d ∈ dimC1, d.is_current = true ∧ d.student_id = rowC1.student_id ∧
      rowC1.student_name = d.full_name ∧ rowC1.student_gender = d.gender ∧
      rowC1.student_age_group = d.age_group ∧
      rowC1.socioeconomic_status = d.socioeconomic_status ∧
      rowC1.has_disability = d.has_disability) ∨
    (rowC1.student_name = none ∧ rowC1.student_gender = none ∧
      rowC1.student_age_group = none ∧ rowC1.socioeconomic_status = none ∧
      rowC1.has_disability = none ∧
      ∀ d ∈ dimC1, d.is_current = true → d.student_id ≠ rowC1.student_id) :=
  C1_amended idHash dimC1 [arC1] rowC1 (of_decide_eq_true (by with_unfolding_all rfl))

/-- Witness for the C7 amended theorem: the orphan event 600 still yields a
fact row. -/
theorem C7_amended_witness :
    ∃ r ∈ fctAssessmentResults idHash dimC1 [arC7orphan, arC7ok],
      r.assessment_result_id = 600 :=
  C7_amended idHash dimC1 [arC7orphan, arC7ok] 600
    ⟨arC7orphan, List.mem_cons_self _ _, rfl, by decide⟩

/-- Witness for C8 at the two staged versions of event 800. -/
theorem C8_dedup_key_witness :
    rowC8.assessment_result_key =
      surrogateKey idHash rowC8.assessment_result_id rowC8.recorded_at ∧
    arC8v1.recorded_at ≤ rowC8.recorded_at ∧
    List.countP (fun r => decide (r.assessment_result_id = 800))
      (fctAssessmentResults idHash dimC1 [arC8v1, arC8v2]) ≤ 1 :=
  have h := C8_dedup_key idHash dimC1 [arC8v1, arC8v2]
  ⟨h.2.1 rowC8 (of_decide_eq_true (by with_unfolding_all rfl)),
   h.2.2 rowC8 (of_decide_eq_true (by with_unfolding_all rfl)) arC8v1
     (List.mem_cons_self _ _) (of_decide_eq_true (by with_unfolding_all rfl))
     (by decide),
   h.1 800⟩
